import Mathlib

/-! Verification of the orchestration layer in `doodad/launch/launch_api.py`.

The orchestration layer (`run_command`, `run_commands`, `run_python`,
`make_python_command`) is embedded shallowly.  Its external collaborators
(`archive_builder.temp_archive_file`, `archive_builder.build_archive`,
`archive_builder._strip_stdout`, `mode.run_script`, `mount.MountLocal`) are
not part of the source under verification; they are abstracted into an
environment record `Env`, constrained only by the narrow interfaces the spec
documents for them.  Each call is modelled as producing an event trace
(acquire temp path, build archive, dispatch command line, release temp path)
together with its result, so that "exactly one build", "N dispatches in
order" and "cleanup on every exit path" become statements about the trace.
The `verbose` flag of the Python source is forwarded opaquely to the
collaborators and affects no observable behaviour of this layer, so it is
omitted from the embedding.
-/

namespace Doodad

/-- Embeds `mount.MountLocal(local_dir=…, mount_point=…)`: one local-directory
to artifact-path binding (a value type; the collaborator is opaque, only these
two constructor arguments are used by `launch_api.py`). -/
structure MountLocal where
  local_dir : String
  mount_point : String
deriving DecidableEq, Repr

/-- Observable events of one orchestration call: acquiring the scoped
temporary archive path, invoking the archive builder, dispatching one command
line to the launch mode, and releasing the temporary archive path. -/
inductive Event where
  | acquire : String → Event
  | build : String → String → String → List MountLocal → Event
  | dispatch : String → Bool → Event
  | release : String → Event
deriving DecidableEq, Repr

/-- The external collaborators of `launch_api.py`, abstracted.
`temp_archive_file` is the scoped temporary path the context manager yields;
`build_archive p payload image mounts` models
`archive_builder.build_archive(archive_filename=p, payload_script=payload,
docker_image=image, mounts=mounts)` and returns the archive path (or fails);
`exec i cmd capture` is the raw backend execution of the `i`-th dispatch of
the call, returning captured stdout text (or failing); `strip_stdout` models
`archive_builder._strip_stdout`. -/
structure Env (ε : Type) where
  temp_archive_file : String
  build_archive : String → String → String → List MountLocal → Except ε String
  exec : Nat → String → Bool → Except ε String
  strip_stdout : String → String

/-- Modelled from the spec: `ExecutionBackend.execute(commandLine, captureOutput)
-> text | absent` — the `mode.run_script` collaborator is not under `src/`;
per the spec it blocks until completion and "returns captured standard output
only if captureOutput is true".  The `Nat` argument is the dispatch sequence
number within one call, letting a modelled backend behave differently per
dispatch. -/
def Env.run_script {ε : Type} (env : Env ε) (i : Nat) (cmd : String)
    (return_output : Bool) : Except ε (Option String) :=
  (env.exec i cmd return_output).map (fun out => if return_output then some out else none)

/-- Python truthiness of an optional string argument (`if cli_args:`):
`None` and the empty string are falsy. -/
def truthy : Option String → Bool
  | none => false
  | some s => !(s == "")

/-- One iteration of the command-line update in the batched loop:

    if cli_arg:
        cmd = archive + ' -- ' + cli_arg

(the previous command line is kept when the entry is falsy). -/
def nextCmd (archive cmd : String) (a : Option String) : String :=
  if truthy a then archive ++ " -- " ++ a.getD "" else cmd

/-- Embeds `run_command`:

    with archive_builder.temp_archive_file() as archive_file:
        archive = archive_builder.build_archive(archive_filename=archive_file,
                                                payload_script=command, …)
        cmd = archive
        if cli_args:
            cmd = archive + ' -- ' + cli_args
        result = mode.run_script(cmd, return_output=return_output, …)
    if return_output:
        result = archive_builder._strip_stdout(result)
    return result

The trace records the context-manager acquire/release around the call body; a
failure of the builder or backend propagates as `Except.error`, and the
context manager still releases the temporary path (Python `with` semantics
plus the collaborator's cleanup guarantee). -/
def run_command {ε : Type} (env : Env ε) (command : String) (cli_args : Option String)
    (mounts : List MountLocal) (return_output : Bool) (docker_image : String) :
    List Event × Except ε (Option String) :=
  match env.build_archive env.temp_archive_file command docker_image mounts with
  | Except.error e =>
    ([Event.acquire env.temp_archive_file,
      Event.build env.temp_archive_file command docker_image mounts,
      Event.release env.temp_archive_file], Except.error e)
  | Except.ok archive =>
    match env.run_script 0 (nextCmd archive archive cli_args) return_output with
    | Except.error e =>
      ([Event.acquire env.temp_archive_file,
        Event.build env.temp_archive_file command docker_image mounts,
        Event.dispatch (nextCmd archive archive cli_args) return_output,
        Event.release env.temp_archive_file], Except.error e)
    | Except.ok result =>
      ([Event.acquire env.temp_archive_file,
        Event.build env.temp_archive_file command docker_image mounts,
        Event.dispatch (nextCmd archive archive cli_args) return_output,
        Event.release env.temp_archive_file],
       Except.ok (if return_output then result.map env.strip_stdout else result))

/-- The batched dispatch loop of `run_commands`:

    cmd = archive            -- caller passes cmd = archive initially
    for cli_arg in cli_args:
        if cli_arg:
            cmd = archive + ' -- ' + cli_arg
        results.append(mode.run_script(cmd, return_output=return_output, …))

`i` is the dispatch sequence number; a backend failure aborts the loop and
propagates, discarding the partial `results` list. -/
def runBatch {ε : Type} (env : Env ε) (archive : String) (return_output : Bool) :
    Nat → String → List (Option String) → List Event × Except ε (List (Option String))
  | _, _, [] => ([], Except.ok [])
  | i, cmd, a :: rest =>
    match env.run_script i (nextCmd archive cmd a) return_output with
    | Except.error e => ([Event.dispatch (nextCmd archive cmd a) return_output], Except.error e)
    | Except.ok r =>
      (Event.dispatch (nextCmd archive cmd a) return_output ::
        (runBatch env archive return_output (i+1) (nextCmd archive cmd a) rest).1,
       match (runBatch env archive return_output (i+1) (nextCmd archive cmd a) rest).2 with
       | Except.error e => Except.error e
       | Except.ok rs => Except.ok (r :: rs))

/-- Embeds `run_commands`:

    results = []
    with archive_builder.temp_archive_file() as archive_file:
        archive = archive_builder.build_archive(archive_filename=archive_file,
                                                payload_script=command, …)
        cmd = archive
        for cli_arg in cli_args:
            if cli_arg:
                cmd = archive + ' -- ' + cli_arg
            results.append(mode.run_script(cmd, return_output=return_output, …))
    if return_output:
        results = [archive_builder._strip_stdout(result) for result in results]
    return results
-/
def run_commands {ε : Type} (env : Env ε) (command : String)
    (cli_args : List (Option String)) (mounts : List MountLocal)
    (return_output : Bool) (docker_image : String) :
    List Event × Except ε (List (Option String)) :=
  match env.build_archive env.temp_archive_file command docker_image mounts with
  | Except.error e =>
    ([Event.acquire env.temp_archive_file,
      Event.build env.temp_archive_file command docker_image mounts,
      Event.release env.temp_archive_file], Except.error e)
  | Except.ok archive =>
    (Event.acquire env.temp_archive_file ::
       Event.build env.temp_archive_file command docker_image mounts ::
       (runBatch env archive return_output 0 archive cli_args).1 ++
       [Event.release env.temp_archive_file],
     match (runBatch env archive return_output 0 archive cli_args).2 with
     | Except.error e => Except.error e
     | Except.ok rs =>
       Except.ok (if return_output then rs.map (Option.map env.strip_stdout) else rs))

/-- Embeds `make_python_command(target, python_cmd='python')`:
`cmd = '%s %s' % (python_cmd, target)`. -/
def make_python_command (target : String) (python_cmd : String) : String :=
  python_cmd ++ " " ++ target

/-- Index one past the last `'/'` in a character list (`p.rfind('/') + 1`
in the Python source of `posixpath`), `0` if there is no slash. -/
def lastSlashEnd (p : List Char) : Nat :=
  (p.foldl (fun (st : Nat × Nat) c =>
    (if c = '/' then st.2 + 1 else st.1, st.2 + 1)) (0, 0)).1

/-- POSIX `os.path.basename`: everything after the last `'/'`. -/
def basename (p : String) : String :=
  String.mk (p.toList.drop (lastSlashEnd p.toList))

/-- POSIX `os.path.dirname`: everything up to the last `'/'`, with trailing
slashes stripped unless the head consists of slashes only. -/
def dirname (p : String) : String :=
  let head := p.toList.take (lastSlashEnd p.toList)
  if head.all (fun c => c == '/') then String.mk head
  else String.mk ((head.reverse.dropWhile (fun c => c == '/')).reverse)

/-- Whether a string starts with `'/'` (`b.startswith('/')`). -/
def startsWithSlash (s : String) : Bool :=
  match s.toList with
  | [] => false
  | c :: _ => c == '/'

/-- Whether a string ends with `'/'` (`path.endswith('/')`). -/
def endsWithSlash (s : String) : Bool :=
  match s.toList.getLast? with
  | none => false
  | some c => c == '/'

/-- POSIX `os.path.join(a, b)` with two arguments. -/
def joinPath (a b : String) : String :=
  if startsWithSlash b then b
  else if a == "" || endsWithSlash a then a ++ b
  else a ++ "/" ++ b

/-- Result of `run_python`: the value of whichever operation it delegates to. -/
inductive PyResult (ε : Type) where
  | single : Except ε (Option String) → PyResult ε
  | multiple : Except ε (List (Option String)) → PyResult ε

/-- Embeds `run_python`:

    target_dir = os.path.dirname(target)
    target_mount_dir = os.path.join(target_mount_dir, os.path.basename(target_dir))
    target_mount = mount.MountLocal(local_dir=target_dir, mount_point=target_mount_dir)
    mounts = list(mounts) + [target_mount]
    target_full_path = os.path.join(target_mount.mount_point, os.path.basename(target))
    command = make_python_command(target_full_path)
    if run_multiple:
        return run_commands(command, docker_image=docker_image, mounts=mounts, **kwargs)
    else:
        return run_command(command, docker_image=docker_image, mounts=mounts, **kwargs)

The forwarded `**kwargs` are rendered explicitly: `cli_args_single` is the
`cli_args` forwarded to `run_command`, `cli_args_batch` the `cli_args`
forwarded to `run_commands`, and `return_output` is forwarded to either. -/
def run_python {ε : Type} (env : Env ε) (target : String) (target_mount_dir : String)
    (mounts : List MountLocal) (docker_image : String) (run_multiple : Bool)
    (cli_args_single : Option String) (cli_args_batch : List (Option String))
    (return_output : Bool) : List Event × PyResult ε :=
  let target_dir := dirname target
  let target_mount_dir := joinPath target_mount_dir (basename target_dir)
  let target_mount : MountLocal := ⟨target_dir, target_mount_dir⟩
  let mounts := mounts ++ [target_mount]
  let target_full_path := joinPath target_mount.mount_point (basename target)
  let command := make_python_command target_full_path "python"
  if run_multiple then
    ((run_commands env command cli_args_batch mounts return_output docker_image).1,
     PyResult.multiple (run_commands env command cli_args_batch mounts return_output docker_image).2)
  else
    ((run_command env command cli_args_single mounts return_output docker_image).1,
     PyResult.single (run_command env command cli_args_single mounts return_output docker_image).2)

/-- The command lines a batch gives rise to: the pure projection of the
batched loop, threading the mutable `cmd` variable through `nextCmd`. -/
def formCmds (archive : String) : String → List (Option String) → List String
  | _, [] => []
  | cmd, a :: rest => nextCmd archive cmd a :: formCmds archive (nextCmd archive cmd a) rest

/-- The command lines of the dispatch events of a trace, in order. -/
def dispatchedCmds : List Event → List String
  | [] => []
  | Event.dispatch c _ :: tr => c :: dispatchedCmds tr
  | _ :: tr => dispatchedCmds tr

/-- The builder invocations recorded in a trace:
(archive_filename, payload_script, docker_image, mounts) in order. -/
def buildCalls : List Event → List (String × String × String × List MountLocal)
  | [] => []
  | Event.build p c i m :: tr => (p, c, i, m) :: buildCalls tr
  | _ :: tr => buildCalls tr

/-- Effect of one event on the existence of path `p`:
`acquire p` creates it, `release p` removes it, nothing else touches it. -/
def tempStep (p : String) (b : Bool) : Event → Bool
  | Event.acquire q => if q = p then true else b
  | Event.release q => if q = p then false else b
  | _ => b

/-- Whether path `p` exists after a trace, starting from non-existence. -/
def tempExistsAfter (tr : List Event) (p : String) : Bool :=
  tr.foldl (tempStep p) false

/-- A concrete environment whose builder and backend always succeed: the
builder returns the temporary path itself, the backend echoes its dispatch
index, and stripping prepends a marker. -/
def env0 : Env Nat :=
  { temp_archive_file := "/tmp/arch"
    build_archive := fun p _ _ _ => Except.ok p
    exec := fun i _ _ => Except.ok ("out" ++ toString i)
    strip_stdout := fun s => "S:" ++ s }

/-- A concrete environment whose backend fails (with error code 7) on the
second dispatch of a call and succeeds otherwise. -/
def env1 : Env Nat :=
  { temp_archive_file := "/tmp/arch"
    build_archive := fun p _ _ _ => Except.ok p
    exec := fun i _ _ => if i = 1 then Except.error 7 else Except.ok ("out" ++ toString i)
    strip_stdout := fun s => "S:" ++ s }

/-! Helper lemmas about trace projections and the batched loop. -/

theorem dispatchedCmds_append (tr tr' : List Event) :
    dispatchedCmds (tr ++ tr') = dispatchedCmds tr ++ dispatchedCmds tr' := by
  induction tr with
  | nil => simp [dispatchedCmds]
  | cons e tr ih => cases e <;> simp [dispatchedCmds, ih]

theorem dispatchedCmds_map (l : List String) (ro : Bool) :
    dispatchedCmds (l.map (fun c => Event.dispatch c ro)) = l := by
  induction l with
  | nil => simp [dispatchedCmds]
  | cons c l ih => simp [dispatchedCmds, ih]

theorem buildCalls_append (tr tr' : List Event) :
    buildCalls (tr ++ tr') = buildCalls tr ++ buildCalls tr' := by
  induction tr with
  | nil => simp [buildCalls]
  | cons e tr ih => cases e <;> simp [buildCalls, ih]

theorem buildCalls_map_dispatch (l : List String) (ro : Bool) :
    buildCalls (l.map (fun c => Event.dispatch c ro)) = [] := by
  induction l with
  | nil => simp [buildCalls]
  | cons c l ih => simp [buildCalls, ih]

theorem formCmds_length (archive : String) :
    ∀ (args : List (Option String)) (cmd : String),
      (formCmds archive cmd args).length = args.length := by
  intro args
  induction args with
  | nil => intro cmd; rfl
  | cons a rest ih => intro cmd; simp [formCmds, ih]

theorem formCmds_get_truthy (archive : String) :
    ∀ (args : List (Option String)) (cmd : String) (i : Nat) (a : Option String),
      args[i]? = some a → truthy a = true →
      (formCmds archive cmd args)[i]? = some (archive ++ " -- " ++ a.getD "") := by
  intro args
  induction args with
  | nil => intro cmd i a h _; simp at h
  | cons b rest ih =>
    intro cmd i a h ht
    cases i with
    | zero =>
      simp at h
      subst h
      simp [formCmds, nextCmd, ht]
    | succ k =>
      simp at h
      simpa [formCmds] using ih (nextCmd archive cmd b) k a h ht

theorem formCmds_get_falsy_zero (archive : String) (cmd : String)
    (args : List (Option String)) (a : Option String)
    (h : args[0]? = some a) (hf : truthy a = false) :
    (formCmds archive cmd args)[0]? = some cmd := by
  cases args with
  | nil => simp at h
  | cons b rest =>
    simp at h
    subst h
    simp [formCmds, nextCmd, hf]

theorem formCmds_get_falsy_succ (archive : String) :
    ∀ (i : Nat) (args : List (Option String)) (cmd : String) (a : Option String),
      args[i+1]? = some a → truthy a = false →
      (formCmds archive cmd args)[i+1]? = (formCmds archive cmd args)[i]? := by
  intro i
  induction i with
  | zero =>
    intro args cmd a h hf
    cases args with
    | nil => simp at h
    | cons b rest =>
      simp at h
      simpa [formCmds] using formCmds_get_falsy_zero archive (nextCmd archive cmd b) rest a h hf
  | succ k ih =>
    intro args cmd a h hf
    cases args with
    | nil => simp at h
    | cons b rest =>
      simp at h
      simpa [formCmds] using ih rest (nextCmd archive cmd b) a h hf

theorem formCmds_get_all_falsy (archive : String) :
    ∀ (i : Nat) (args : List (Option String)) (cmd : String) (a : Option String),
      args[i]? = some a → truthy a = false →
      (∀ j b, j < i → args[j]? = some b → truthy b = false) →
      (formCmds archive cmd args)[i]? = some cmd := by
  intro i
  induction i with
  | zero =>
    intro args cmd a h hf _
    exact formCmds_get_falsy_zero archive cmd args a h hf
  | succ k ih =>
    intro args cmd a h hf hprev
    cases args with
    | nil => simp at h
    | cons b rest =>
      have hb : truthy b = false := hprev 0 b (Nat.succ_pos k) (by simp)
      simp at h
      have hcmd : nextCmd archive cmd b = cmd := by simp [nextCmd, hb]
      have := ih rest cmd a h hf
        (fun j b' hj hget => hprev (j+1) b' (Nat.succ_lt_succ hj) (by simpa using hget))
      simpa [formCmds, hcmd] using this

theorem run_script_false_none {ε : Type} (env : Env ε) (i : Nat) (cmd : String)
    (r : Option String) (h : env.run_script i cmd false = Except.ok r) : r = none := by
  unfold Env.run_script at h
  cases hx : env.exec i cmd false with
  | error e => rw [hx] at h; simp [Except.map] at h
  | ok out =>
    rw [hx] at h
    simp [Except.map] at h
    exact h.symm

theorem runBatch_trace_take {ε : Type} (env : Env ε) (archive : String) (ro : Bool) :
    ∀ (args : List (Option String)) (i : Nat) (cmd : String),
      ∃ k, k ≤ args.length ∧
        (runBatch env archive ro i cmd args).1
          = ((formCmds archive cmd args).take k).map (fun c => Event.dispatch c ro) := by
  intro args
  induction args with
  | nil => intro i cmd; exact ⟨0, Nat.le_refl 0, rfl⟩
  | cons a rest ih =>
    intro i cmd
    cases h1 : env.run_script i (nextCmd archive cmd a) ro with
    | error e =>
      refine ⟨1, by simp, ?_⟩
      simp [runBatch, h1, formCmds]
    | ok r =>
      obtain ⟨k, hk, htr⟩ := ih (i+1) (nextCmd archive cmd a)
      refine ⟨k+1, by simpa using Nat.succ_le_succ hk, ?_⟩
      simp [runBatch, h1, formCmds, htr]

theorem runBatch_ok {ε : Type} (env : Env ε) (archive : String) (ro : Bool) :
    ∀ (args : List (Option String)) (i : Nat) (cmd : String) (rs : List (Option String)),
      (runBatch env archive ro i cmd args).2 = Except.ok rs →
      (runBatch env archive ro i cmd args).1
          = (formCmds archive cmd args).map (fun c => Event.dispatch c ro)
        ∧ rs.length = args.length
        ∧ ∀ j c, (formCmds archive cmd args)[j]? = some c →
            ∃ r, env.run_script (i + j) c ro = Except.ok r ∧ rs[j]? = some r := by
  intro args
  induction args with
  | nil =>
    intro i cmd rs h
    have hrs : rs = [] := by simpa [runBatch] using h.symm
    subst hrs
    refine ⟨rfl, rfl, ?_⟩
    intro j c hc
    simp [formCmds] at hc
  | cons a rest ih =>
    intro i cmd rs h
    cases h1 : env.run_script i (nextCmd archive cmd a) ro with
    | error e => simp [runBatch, h1] at h
    | ok r =>
      cases h2 : (runBatch env archive ro (i+1) (nextCmd archive cmd a) rest).2 with
      | error e => simp [runBatch, h1, h2] at h
      | ok rs' =>
        have hrs : rs = r :: rs' := by simpa [runBatch, h1, h2] using h.symm
        subst hrs
        obtain ⟨htr, hlen, hidx⟩ := ih (i+1) (nextCmd archive cmd a) rs' h2
        refine ⟨?_, ?_, ?_⟩
        · simp [runBatch, h1, formCmds, htr]
        · simp [formCmds, hlen]
        · intro j c hc
          cases j with
          | zero =>
            simp [formCmds] at hc
            subst hc
            exact ⟨r, by simpa using h1, by simp⟩
          | succ k =>
            simp [formCmds] at hc
            obtain ⟨r', hr', hrs'⟩ := hidx k c hc
            refine ⟨r', ?_, ?_⟩
            · have hik : i + (k+1) = (i+1) + k := by omega
              rw [hik]; exact hr'
            · simpa using hrs'

theorem runBatch_err {ε : Type} (env : Env ε) (archive : String) (ro : Bool) :
    ∀ (args : List (Option String)) (i : Nat) (cmd : String) (e : ε),
      (runBatch env archive ro i cmd args).2 = Except.error e →
      ∃ k, k < args.length
        ∧ (runBatch env archive ro i cmd args).1
            = ((formCmds archive cmd args).take (k+1)).map (fun c => Event.dispatch c ro)
        ∧ (∃ c, (formCmds archive cmd args)[k]? = some c
             ∧ env.run_script (i + k) c ro = Except.error e)
        ∧ ∀ j, j < k → ∃ c r, (formCmds archive cmd args)[j]? = some c
             ∧ env.run_script (i + j) c ro = Except.ok r := by
  intro args
  induction args with
  | nil => intro i cmd e h; simp [runBatch] at h
  | cons a rest ih =>
    intro i cmd e h
    cases h1 : env.run_script i (nextCmd archive cmd a) ro with
    | error e' =>
      have he : e' = e := by simpa [runBatch, h1] using h
      rw [he] at h1
      refine ⟨0, Nat.succ_pos _, ?_, ⟨nextCmd archive cmd a, ?_, ?_⟩, ?_⟩
      · simp [runBatch, h1, formCmds]
      · simp [formCmds]
      · simpa using h1
      · intro j hj; omega
    | ok r =>
      cases h2 : (runBatch env archive ro (i+1) (nextCmd archive cmd a) rest).2 with
      | ok rs => simp [runBatch, h1, h2] at h
      | error e' =>
        have he : e' = e := by simpa [runBatch, h1, h2] using h
        rw [he] at h2
        obtain ⟨k, hk, htr, ⟨c, hc, herr⟩, hpre⟩ := ih (i+1) (nextCmd archive cmd a) e h2
        refine ⟨k+1, by simpa using Nat.succ_lt_succ hk, ?_, ⟨c, ?_, ?_⟩, ?_⟩
        · simp [runBatch, h1, formCmds, htr]
        · simpa [formCmds] using hc
        · have hik : i + (k+1) = (i+1) + k := by omega
          rw [hik]; exact herr
        · intro j hj
          cases j with
          | zero =>
            exact ⟨nextCmd archive cmd a, r, by simp [formCmds], by simpa using h1⟩
          | succ m =>
            obtain ⟨c', r', hc', hr'⟩ := hpre m (by omega)
            refine ⟨c', r', by simpa [formCmds] using hc', ?_⟩
            have hik : i + (m+1) = (i+1) + m := by omega
            rw [hik]; exact hr'

theorem buildCalls_take_map_dispatch (l : List String) (k : Nat) (ro : Bool) :
    buildCalls (List.take k (l.map (fun c => Event.dispatch c ro))) = [] := by
  rw [← List.map_take]
  exact buildCalls_map_dispatch _ ro

theorem buildCalls_run_command {ε : Type} (env : Env ε) (command : String)
    (cli_args : Option String) (mounts : List MountLocal) (ro : Bool) (img : String) :
    buildCalls (run_command env command cli_args mounts ro img).1
      = [(env.temp_archive_file, command, img, mounts)] := by
  cases hb : env.build_archive env.temp_archive_file command img mounts with
  | error e => simp [run_command, hb, buildCalls]
  | ok archive =>
    cases hr : env.run_script 0 (nextCmd archive archive cli_args) ro with
    | error e => simp [run_command, hb, hr, buildCalls]
    | ok r => simp [run_command, hb, hr, buildCalls]

theorem buildCalls_run_commands {ε : Type} (env : Env ε) (command : String)
    (cli_args : List (Option String)) (mounts : List MountLocal) (ro : Bool) (img : String) :
    buildCalls (run_commands env command cli_args mounts ro img).1
      = [(env.temp_archive_file, command, img, mounts)] := by
  cases hb : env.build_archive env.temp_archive_file command img mounts with
  | error e => simp [run_commands, hb, buildCalls]
  | ok archive =>
    obtain ⟨k, _, htr⟩ := runBatch_trace_take env archive ro cli_args 0 archive
    simp [run_commands, hb, buildCalls, htr, buildCalls_append, buildCalls_map_dispatch,
      buildCalls_take_map_dispatch]

theorem dispatchedCmds_run_commands_ok {ε : Type} (env : Env ε) (command : String)
    (cli_args : List (Option String)) (mounts : List MountLocal) (ro : Bool) (img : String)
    (archive : String)
    (hb : env.build_archive env.temp_archive_file command img mounts = Except.ok archive) :
    dispatchedCmds (run_commands env command cli_args mounts ro img).1
      = dispatchedCmds (runBatch env archive ro 0 archive cli_args).1 := by
  simp [run_commands, hb, dispatchedCmds_append, dispatchedCmds]

theorem dispatchedCmds_run_commands_take {ε : Type} (env : Env ε) (command : String)
    (cli_args : List (Option String)) (mounts : List MountLocal) (ro : Bool) (img : String)
    (archive : String)
    (hb : env.build_archive env.temp_archive_file command img mounts = Except.ok archive) :
    ∃ k, k ≤ cli_args.length ∧
      dispatchedCmds (run_commands env command cli_args mounts ro img).1
        = (formCmds archive archive cli_args).take k := by
  obtain ⟨k, hk, htr⟩ := runBatch_trace_take env archive ro cli_args 0 archive
  refine ⟨k, hk, ?_⟩
  rw [dispatchedCmds_run_commands_ok env command cli_args mounts ro img archive hb, htr,
    dispatchedCmds_map]

theorem tempExistsAfter_snoc_release (tr : List Event) (p : String) :
    tempExistsAfter (tr ++ [Event.release p]) p = false := by
  unfold tempExistsAfter
  rw [List.foldl_append]
  simp [tempStep]

theorem run_python_true_eq {ε : Type} (env : Env ε) (target : String)
    (target_mount_dir : String) (mounts : List MountLocal) (img : String)
    (cli_args_single : Option String) (cli_args_batch : List (Option String)) (ro : Bool) :
    run_python env target target_mount_dir mounts img true cli_args_single cli_args_batch ro
      = ((run_commands env
            (make_python_command
              (joinPath (joinPath target_mount_dir (basename (dirname target)))
                (basename target)) "python")
            cli_args_batch
            (mounts ++ [⟨dirname target, joinPath target_mount_dir (basename (dirname target))⟩])
            ro img).1,
         PyResult.multiple (run_commands env
            (make_python_command
              (joinPath (joinPath target_mount_dir (basename (dirname target)))
                (basename target)) "python")
            cli_args_batch
            (mounts ++ [⟨dirname target, joinPath target_mount_dir (basename (dirname target))⟩])
            ro img).2) := rfl

theorem run_python_false_eq {ε : Type} (env : Env ε) (target : String)
    (target_mount_dir : String) (mounts : List MountLocal) (img : String)
    (cli_args_single : Option String) (cli_args_batch : List (Option String)) (ro : Bool) :
    run_python env target target_mount_dir mounts img false cli_args_single cli_args_batch ro
      = ((run_command env
            (make_python_command
              (joinPath (joinPath target_mount_dir (basename (dirname target)))
                (basename target)) "python")
            cli_args_single
            (mounts ++ [⟨dirname target, joinPath target_mount_dir (basename (dirname target))⟩])
            ro img).1,
         PyResult.single (run_command env
            (make_python_command
              (joinPath (joinPath target_mount_dir (basename (dirname target)))
                (basename target)) "python")
            cli_args_single
            (mounts ++ [⟨dirname target, joinPath target_mount_dir (basename (dirname target))⟩])
            ro img).2) := rfl

/-! Claim theorems. -/

/-- C3: for every command, `run_command` calls the artifact builder exactly
once and the backend's execute exactly once, with command line equal to the
artifact path alone when `cli_args` is empty or absent, and equal to
artifact-path ++ " -- " ++ cli_args when `cli_args` is a non-empty string. -/
theorem run_command_one_build_one_dispatch {ε : Type} (env : Env ε) (command : String)
    (cli_args : Option String) (mounts : List MountLocal) (ro : Bool) (img : String) :
    buildCalls (run_command env command cli_args mounts ro img).1
        = [(env.temp_archive_file, command, img, mounts)]
    ∧ ∀ archive, env.build_archive env.temp_archive_file command img mounts = Except.ok archive →
        (truthy cli_args = false →
          dispatchedCmds (run_command env command cli_args mounts ro img).1 = [archive])
        ∧ (∀ s, cli_args = some s → s ≠ "" →
          dispatchedCmds (run_command env command cli_args mounts ro img).1
            = [archive ++ " -- " ++ s]) := by
  refine ⟨buildCalls_run_command env command cli_args mounts ro img, ?_⟩
  intro archive hb
  have hds : dispatchedCmds (run_command env command cli_args mounts ro img).1
      = [nextCmd archive archive cli_args] := by
    cases hr : env.run_script 0 (nextCmd archive archive cli_args) ro with
    | error e => simp [run_command, hb, hr, dispatchedCmds]
    | ok r => simp [run_command, hb, hr, dispatchedCmds]
  constructor
  · intro hf
    rw [hds]
    simp [nextCmd, hf]
  · intro s hs hne
    subst hs
    rw [hds]
    have ht : truthy (some s) = true := by simp [truthy, hne]
    simp [nextCmd, ht]

/-- Witness for C3 at a concrete environment and arguments. -/
theorem run_command_one_build_one_dispatch_witness :
    dispatchedCmds (run_command env0 "echo hi" (some "x") [] false "img").1
      = ["/tmp/arch -- x"] := by
  have h := run_command_one_build_one_dispatch env0 "echo hi" (some "x") [] false "img"
  exact (h.2 "/tmp/arch" rfl).2 "x" rfl (by decide)

/-- C4: `run_command` returns the backend's captured output passed once
through the framing-stripping step when capture is requested, and returns
nothing when capture is not requested. -/
theorem run_command_capture_semantics {ε : Type} (env : Env ε) (command : String)
    (cli_args : Option String) (mounts : List MountLocal) (ro : Bool) (img : String)
    (archive : String)
    (hb : env.build_archive env.temp_archive_file command img mounts = Except.ok archive)
    (r : Option String)
    (hr : env.run_script 0 (nextCmd archive archive cli_args) ro = Except.ok r) :
    (ro = true →
      (run_command env command cli_args mounts ro img).2
        = Except.ok (Option.map env.strip_stdout r))
    ∧ (ro = false →
      (run_command env command cli_args mounts ro img).2 = Except.ok none) := by
  constructor
  · intro h
    subst h
    simp [run_command, hb, hr]
  · intro h
    subst h
    have hn : r = none := run_script_false_none env 0 _ r hr
    subst hn
    simp [run_command, hb, hr]

/-- Witness for C4 at a concrete environment and arguments. -/
theorem run_command_capture_semantics_witness :
    (run_command env0 "echo hi" none [] true "img").2 = Except.ok (some "S:out0")
    ∧ (run_command env0 "echo hi" none [] false "img").2 = Except.ok none := by
  constructor
  · exact (run_command_capture_semantics env0 "echo hi" none [] true "img" "/tmp/arch" rfl
      (some "out0") rfl).1 rfl
  · exact (run_command_capture_semantics env0 "echo hi" none [] false "img" "/tmp/arch" rfl
      none rfl).2 rfl

/-- C2: for every command and batch of length N, `run_commands` calls the
artifact builder exactly once; when it returns successfully it dispatched
exactly N command lines, sequentially in batch order, and returns N results
in that order, the j-th being the backend's j-th output passed once through
the output-trimming step when capture is requested. -/
theorem run_commands_one_build_n_dispatches {ε : Type} (env : Env ε) (command : String)
    (cli_args : List (Option String)) (mounts : List MountLocal) (ro : Bool) (img : String) :
    buildCalls (run_commands env command cli_args mounts ro img).1
        = [(env.temp_archive_file, command, img, mounts)]
    ∧ ∀ rs, (run_commands env command cli_args mounts ro img).2 = Except.ok rs →
        (dispatchedCmds (run_commands env command cli_args mounts ro img).1).length
            = cli_args.length
        ∧ rs.length = cli_args.length
        ∧ ∀ j c, (dispatchedCmds (run_commands env command cli_args mounts ro img).1)[j]?
              = some c →
            ∃ r, env.run_script j c ro = Except.ok r
              ∧ rs[j]? = some (if ro then Option.map env.strip_stdout r else r) := by
  refine ⟨buildCalls_run_commands env command cli_args mounts ro img, ?_⟩
  intro rs hrs
  cases hb : env.build_archive env.temp_archive_file command img mounts with
  | error e => simp [run_commands, hb] at hrs
  | ok archive =>
    cases h2 : (runBatch env archive ro 0 archive cli_args).2 with
    | error e => simp [run_commands, hb, h2] at hrs
    | ok rs0 =>
      have hrs' : rs = if ro then rs0.map (Option.map env.strip_stdout) else rs0 := by
        simpa [run_commands, hb, h2] using hrs.symm
      obtain ⟨htr, hlen, hidx⟩ := runBatch_ok env archive ro cli_args 0 archive rs0 h2
      have hds : dispatchedCmds (run_commands env command cli_args mounts ro img).1
          = formCmds archive archive cli_args := by
        rw [dispatchedCmds_run_commands_ok env command cli_args mounts ro img archive hb, htr,
          dispatchedCmds_map]
      refine ⟨?_, ?_, ?_⟩
      · rw [hds, formCmds_length]
      · cases ro <;> simp_all
      · intro j c hc
        rw [hds] at hc
        obtain ⟨r, hrr, hr0⟩ := hidx j c hc
        refine ⟨r, by simpa using hrr, ?_⟩
        cases ro with
        | false => simp [hrs', hr0]
        | true => simp [hrs', hr0]

/-- Witness for C2 at a concrete environment and arguments. -/
theorem run_commands_one_build_n_dispatches_witness :
    (dispatchedCmds (run_commands env0 "echo hi" [some "a", some "b"] [] true "img").1).length
      = 2 := by
  have h := run_commands_one_build_n_dispatches env0 "echo hi" [some "a", some "b"] [] true "img"
  exact (h.2 [some "S:out0", some "S:out1"] rfl).1

/-- C1: in `run_commands`, a batch entry holding a non-empty argument string
is dispatched with artifact-path ++ " -- " ++ entry, and an empty or absent
entry following some earlier entry is dispatched with the most recently
formed command line, i.e. the previous entry's dispatched command line. -/
theorem run_commands_arg_composition {ε : Type} (env : Env ε) (command : String)
    (cli_args : List (Option String)) (mounts : List MountLocal) (ro : Bool) (img : String)
    (archive : String)
    (hb : env.build_archive env.temp_archive_file command img mounts = Except.ok archive)
    (i : Nat) (a : Option String) (ha : cli_args[i]? = some a)
    (hi : i < (dispatchedCmds (run_commands env command cli_args mounts ro img).1).length) :
    (truthy a = true →
      (dispatchedCmds (run_commands env command cli_args mounts ro img).1)[i]?
        = some (archive ++ " -- " ++ a.getD ""))
    ∧ (truthy a = false → 0 < i →
      (dispatchedCmds (run_commands env command cli_args mounts ro img).1)[i]?
        = (dispatchedCmds (run_commands env command cli_args mounts ro img).1)[i-1]?) := by
  obtain ⟨k, hk, hds⟩ :=
    dispatchedCmds_run_commands_take env command cli_args mounts ro img archive hb
  rw [hds] at hi ⊢
  have hik : i < k := by
    rw [List.length_take] at hi
    omega
  constructor
  · intro ht
    rw [List.getElem?_take_of_lt hik]
    exact formCmds_get_truthy archive cli_args archive i a ha ht
  · intro hf hpos
    obtain ⟨m, rfl⟩ : ∃ m, i = m + 1 := ⟨i - 1, by omega⟩
    simp only [Nat.add_sub_cancel]
    rw [List.getElem?_take_of_lt hik, List.getElem?_take_of_lt (by omega : m < k)]
    exact formCmds_get_falsy_succ archive m cli_args archive a ha hf

/-- Witness for C1 at a concrete environment and arguments: the empty entry
after `some "x"` repeats the previous command line. -/
theorem run_commands_arg_composition_witness :
    (dispatchedCmds (run_commands env0 "echo hi" [some "x", none] [] false "img").1)[1]?
      = (dispatchedCmds (run_commands env0 "echo hi" [some "x", none] [] false "img").1)[0]? := by
  have h := run_commands_arg_composition env0 "echo hi" [some "x", none] [] false "img"
    "/tmp/arch" rfl 1 none rfl (by decide)
  simpa using h.2 rfl (by omega)

/-- C10: in `run_commands`, an empty or absent batch entry with no preceding
non-empty entry is dispatched with the bare artifact path. -/
theorem run_commands_initial_bare_archive {ε : Type} (env : Env ε) (command : String)
    (cli_args : List (Option String)) (mounts : List MountLocal) (ro : Bool) (img : String)
    (archive : String)
    (hb : env.build_archive env.temp_archive_file command img mounts = Except.ok archive)
    (i : Nat) (a : Option String) (ha : cli_args[i]? = some a)
    (hf : truthy a = false)
    (hprev : ∀ j b, j < i → cli_args[j]? = some b → truthy b = false)
    (hi : i < (dispatchedCmds (run_commands env command cli_args mounts ro img).1).length) :
    (dispatchedCmds (run_commands env command cli_args mounts ro img).1)[i]? = some archive := by
  obtain ⟨k, hk, hds⟩ :=
    dispatchedCmds_run_commands_take env command cli_args mounts ro img archive hb
  rw [hds] at hi ⊢
  have hik : i < k := by
    rw [List.length_take] at hi
    omega
  rw [List.getElem?_take_of_lt hik]
  exact formCmds_get_all_falsy archive i cli_args archive a ha hf hprev

/-- Witness for C10 at a concrete environment and arguments: the empty second
entry, preceded only by an absent entry, dispatches the bare archive path. -/
theorem run_commands_initial_bare_archive_witness :
    (dispatchedCmds (run_commands env0 "echo hi" [none, some ""] [] false "img").1)[1]?
      = some "/tmp/arch" := by
  have hprev : ∀ j b, j < 1 → ([none, some ""] : List (Option String))[j]? = some b →
      truthy b = false := by
    intro j b hj hget
    have hj0 : j = 0 := by omega
    subst hj0
    simp at hget
    simp [← hget, truthy]
  exact run_commands_initial_bare_archive env0 "echo hi" [none, some ""] [] false "img"
    "/tmp/arch" rfl 1 (some "") rfl rfl hprev (by decide)

/-- C7: if the backend dispatch for some batch entry fails, `run_commands`
propagates exactly that failure; the failing dispatch is the last one made
(no later entry is dispatched), and every earlier dispatch had succeeded. -/
theorem run_commands_failure_propagation {ε : Type} (env : Env ε) (command : String)
    (cli_args : List (Option String)) (mounts : List MountLocal) (ro : Bool) (img : String)
    (archive : String)
    (hb : env.build_archive env.temp_archive_file command img mounts = Except.ok archive)
    (e : ε)
    (he : (run_commands env command cli_args mounts ro img).2 = Except.error e) :
    ∃ k c, k < cli_args.length
      ∧ (dispatchedCmds (run_commands env command cli_args mounts ro img).1).length = k + 1
      ∧ (dispatchedCmds (run_commands env command cli_args mounts ro img).1)[k]? = some c
      ∧ env.run_script k c ro = Except.error e
      ∧ ∀ j, j < k → ∃ cj rj,
          (dispatchedCmds (run_commands env command cli_args mounts ro img).1)[j]? = some cj
          ∧ env.run_script j cj ro = Except.ok rj := by
  have hbatch : (runBatch env archive ro 0 archive cli_args).2 = Except.error e := by
    cases h2 : (runBatch env archive ro 0 archive cli_args).2 with
    | error e' =>
      have he' : e' = e := by simpa [run_commands, hb, h2] using he
      rw [he']
    | ok rs => simp [run_commands, hb, h2] at he
  obtain ⟨k, hk, htr, ⟨c, hc, herr⟩, hpre⟩ :=
    runBatch_err env archive ro cli_args 0 archive e hbatch
  have hds : dispatchedCmds (run_commands env command cli_args mounts ro img).1
      = (formCmds archive archive cli_args).take (k+1) := by
    rw [dispatchedCmds_run_commands_ok env command cli_args mounts ro img archive hb, htr,
      dispatchedCmds_map]
  refine ⟨k, c, hk, ?_, ?_, ?_, ?_⟩
  · rw [hds, List.length_take, formCmds_length]
    omega
  · rw [hds, List.getElem?_take_of_lt (by omega : k < k + 1)]
    exact hc
  · simpa using herr
  · intro j hj
    obtain ⟨cj, rj, hcj, hrj⟩ := hpre j hj
    refine ⟨cj, rj, ?_, by simpa using hrj⟩
    rw [hds, List.getElem?_take_of_lt (by omega : j < k + 1)]
    exact hcj

/-- Witness for C7 at a concrete environment whose backend fails on the
second dispatch. -/
theorem run_commands_failure_propagation_witness :
    ∃ k c, k < ([some "a", some "b", some "c"] : List (Option String)).length
      ∧ (dispatchedCmds
          (run_commands env1 "echo hi" [some "a", some "b", some "c"] [] true "img").1).length
            = k + 1
      ∧ (dispatchedCmds
          (run_commands env1 "echo hi" [some "a", some "b", some "c"] [] true "img").1)[k]?
            = some c
      ∧ env1.run_script k c true = Except.error 7
      ∧ ∀ j, j < k → ∃ cj rj,
          (dispatchedCmds
            (run_commands env1 "echo hi" [some "a", some "b", some "c"] [] true "img").1)[j]?
              = some cj
          ∧ env1.run_script j cj true = Except.ok rj :=
  run_commands_failure_propagation env1 "echo hi" [some "a", some "b", some "c"] [] true "img"
    "/tmp/arch" rfl 7 rfl

/-- C6: the scoped temporary artifact location used by `run_command` and
`run_commands` is released on every exit path: whatever the builder and the
backend do, the trace ends with the release of the temporary path and the
path no longer exists after the call. -/
theorem temp_archive_released_on_all_paths {ε : Type} (env : Env ε) (command : String)
    (cli_args : Option String) (batch : List (Option String)) (mounts : List MountLocal)
    (ro : Bool) (img : String) :
    tempExistsAfter (run_command env command cli_args mounts ro img).1 env.temp_archive_file
        = false
    ∧ (run_command env command cli_args mounts ro img).1.getLast?
        = some (Event.release env.temp_archive_file)
    ∧ tempExistsAfter (run_commands env command batch mounts ro img).1 env.temp_archive_file
        = false
    ∧ (run_commands env command batch mounts ro img).1.getLast?
        = some (Event.release env.temp_archive_file) := by
  have hcmds : ∀ (hb : Except ε String),
      env.build_archive env.temp_archive_file command img mounts = hb →
      (tempExistsAfter (run_commands env command batch mounts ro img).1 env.temp_archive_file
          = false
        ∧ (run_commands env command batch mounts ro img).1.getLast?
          = some (Event.release env.temp_archive_file)) := by
    intro hb
    cases hb with
    | error e =>
      intro h
      constructor
      · simp [run_commands, h, tempExistsAfter, tempStep]
      · simp [run_commands, h]
    | ok archive =>
      intro h
      have htr : (run_commands env command batch mounts ro img).1
          = (Event.acquire env.temp_archive_file ::
             Event.build env.temp_archive_file command img mounts ::
             (runBatch env archive ro 0 archive batch).1)
            ++ [Event.release env.temp_archive_file] := by
        simp [run_commands, h]
      constructor
      · rw [htr, tempExistsAfter_snoc_release]
      · rw [htr, List.getLast?_concat]
  refine ⟨?_, ?_, (hcmds _ rfl).1, (hcmds _ rfl).2⟩
  · cases hb : env.build_archive env.temp_archive_file command img mounts with
    | error e => simp [run_command, hb, tempExistsAfter, tempStep]
    | ok archive =>
      cases hr : env.run_script 0 (nextCmd archive archive cli_args) ro with
      | error e => simp [run_command, hb, hr, tempExistsAfter, tempStep]
      | ok r => simp [run_command, hb, hr, tempExistsAfter, tempStep]
  · cases hb : env.build_archive env.temp_archive_file command img mounts with
    | error e => simp [run_command, hb]
    | ok archive =>
      cases hr : env.run_script 0 (nextCmd archive archive cli_args) ro with
      | error e => simp [run_command, hb, hr]
      | ok r => simp [run_command, hb, hr]

/-- C5: `run_python` derives a mount binding the script's containing
directory to the mount-dir joined with that directory's basename, appends it
to the caller's mounts, forms the interpreter command on the mount point
joined with the script's basename, and delegates to `run_commands` when
`run_multiple` is true and to `run_command` otherwise; on the spec's example
the derived mount point is `target/proj` and the command is
`python target/proj/hello.py`. -/
theorem run_python_derivation {ε : Type} (env : Env ε) (target : String)
    (target_mount_dir : String) (mounts : List MountLocal) (img : String)
    (run_multiple : Bool) (cli_args_single : Option String)
    (cli_args_batch : List (Option String)) (ro : Bool) :
    run_python env target target_mount_dir mounts img run_multiple cli_args_single
        cli_args_batch ro
      = (if run_multiple then
          ((run_commands env
              (make_python_command
                (joinPath (joinPath target_mount_dir (basename (dirname target)))
                  (basename target)) "python")
              cli_args_batch
              (mounts ++ [⟨dirname target, joinPath target_mount_dir (basename (dirname target))⟩])
              ro img).1,
           PyResult.multiple (run_commands env
              (make_python_command
                (joinPath (joinPath target_mount_dir (basename (dirname target)))
                  (basename target)) "python")
              cli_args_batch
              (mounts ++ [⟨dirname target, joinPath target_mount_dir (basename (dirname target))⟩])
              ro img).2)
        else
          ((run_command env
              (make_python_command
                (joinPath (joinPath target_mount_dir (basename (dirname target)))
                  (basename target)) "python")
              cli_args_single
              (mounts ++ [⟨dirname target, joinPath target_mount_dir (basename (dirname target))⟩])
              ro img).1,
           PyResult.single (run_command env
              (make_python_command
                (joinPath (joinPath target_mount_dir (basename (dirname target)))
                  (basename target)) "python")
              cli_args_single
              (mounts ++ [⟨dirname target, joinPath target_mount_dir (basename (dirname target))⟩])
              ro img).2))
    ∧ dirname "/home/user/proj/hello.py" = "/home/user/proj"
    ∧ joinPath "target" (basename (dirname "/home/user/proj/hello.py")) = "target/proj"
    ∧ make_python_command
        (joinPath (joinPath "target" (basename (dirname "/home/user/proj/hello.py")))
          (basename "/home/user/proj/hello.py")) "python"
      = "python target/proj/hello.py" := by
  refine ⟨?_, by decide, by decide, by decide⟩
  cases run_multiple <;> rfl

/-- C9: `run_python` does not mutate the caller-supplied mounts: the builder
receives a fresh list consisting of the caller's mounts followed by the
derived mount, of which the caller's list is the unchanged prefix. -/
theorem run_python_mounts_not_mutated {ε : Type} (env : Env ε) (target : String)
    (target_mount_dir : String) (mounts : List MountLocal) (img : String)
    (run_multiple : Bool) (cli_args_single : Option String)
    (cli_args_batch : List (Option String)) (ro : Bool) :
    buildCalls (run_python env target target_mount_dir mounts img run_multiple
        cli_args_single cli_args_batch ro).1
      = [(env.temp_archive_file,
          make_python_command
            (joinPath (joinPath target_mount_dir (basename (dirname target))) (basename target))
            "python",
          img,
          mounts ++ [(⟨dirname target, joinPath target_mount_dir (basename (dirname target))⟩ : MountLocal)])]
    ∧ (mounts ++ [(⟨dirname target, joinPath target_mount_dir (basename (dirname target))⟩ : MountLocal)]).take
          mounts.length
        = mounts := by
  constructor
  · cases run_multiple with
    | true =>
      rw [run_python_true_eq]
      exact buildCalls_run_commands env _ cli_args_batch _ ro img
    | false =>
      rw [run_python_false_eq]
      exact buildCalls_run_command env _ cli_args_single _ ro img
  · exact List.take_left mounts _

/-- C8: `make_python_command` is a pure total function returning the
interpreter command, a space, then the target, as on the concrete instance
from the spec's example. -/
theorem make_python_command_pure (target python_cmd : String) :
    make_python_command target python_cmd = python_cmd ++ " " ++ target
    ∧ make_python_command "target/proj/hello.py" "python" = "python target/proj/hello.py" :=
  ⟨rfl, rfl⟩

end Doodad
